import Mathlib

/-
Verification of the Telegram / Cursor task-bot orchestration layer.

The definitions below are a shallow embedding of the repository's code:
`database.ts` (conversation log, task table), `bot.ts` (task monitor,
photo handler), `image-cache.ts` (file-backed TTL cache) and `agent.ts`
(tool executors and the processMessage error boundary).  Timestamps are
modelled as natural numbers (milliseconds); external effects (SQLite,
the filesystem, the remote Cursor API, the LLM call) are modelled as
explicit state values and `Except`-valued parameters.
-/

namespace CursorBot

/-! ## Conversation message log (database.ts, table conversation_messages) -/

/-- Row of the `conversation_messages` table.  `created_at` is the
DATETIME insertion timestamp, modelled as a natural number. -/
structure ConversationRow where
  id : Nat
  user_id : Int
  chat_id : Int
  message_data : String
  message_type : String
  step_number : Nat
  created_at : Nat
deriving DecidableEq, Repr

/-- SQL `ORDER BY created_at ASC, step_number ASC` comparison key. -/
def rowLe (a b : ConversationRow) : Bool :=
  Nat.blt a.created_at b.created_at ||
    (a.created_at == b.created_at && Nat.ble a.step_number b.step_number)

/-- Insert one row into a list sorted by `rowLe` (stable). -/
def insertRow (a : ConversationRow) : List ConversationRow → List ConversationRow
  | [] => [a]
  | b :: l => if rowLe a b then a :: b :: l else b :: insertRow a l

/-- Stable sort by `(created_at, step_number)` ascending, modelling the
SQL `ORDER BY created_at ASC, step_number ASC` clause. -/
def sortRows : List ConversationRow → List ConversationRow
  | [] => []
  | a :: l => insertRow a (sortRows l)

/-- `Database.getConversationMessages`: rows of the table for the given
user and chat, ordered by `created_at ASC, step_number ASC`, first
`limit` rows (SQL `LIMIT`). -/
def getConversationMessages (table : List ConversationRow) (userId chatId : Int)
    (limit : Nat) : List ConversationRow :=
  List.take limit
    (sortRows (table.filter (fun r => r.user_id == userId && r.chat_id == chatId)))

/-- A message in the LLM conversation format (the `CoreMessage` shape,
restricted to the fields the repository's own code reads). -/
structure CoreMessage where
  role : String
  content : String
deriving DecidableEq, Repr

/-- The fixed fallback produced by `Database.getConversationHistory`
when `JSON.parse` of a stored row fails. -/
def parseErrorMessage : CoreMessage :=
  { role := "user", content := "Error parsing message" }

/-- `Database.getConversationHistory`: maps each row returned by
`getConversationMessages` through `JSON.parse` (modelled by the partial
function `parse`); a row whose data does not parse becomes the fixed
fallback message instead of an error. -/
def getConversationHistory (parse : String → Option CoreMessage)
    (table : List ConversationRow) (userId chatId : Int) (limit : Nat) :
    List CoreMessage :=
  (getConversationMessages table userId chatId limit).map (fun msg =>
    match parse msg.message_data with
    | some m => m
    | none => parseErrorMessage)

/-! ### Claims C1 and C10 -/

/-- Concrete table for the C1 failing input: 51 rows for (user 1, chat 1)
with strictly increasing creation timestamps. -/
def c1Row (i : Nat) : ConversationRow :=
  { id := i, user_id := 1, chat_id := 1, message_data := "m",
    message_type := "user", step_number := 0, created_at := i }

/-- C1 failing input: a conversation log containing 51 messages. -/
def c1Table : List ConversationRow := (List.range 51).map c1Row

/-- C1: on a log of 51 messages with limit 50, `getConversationMessages`
returns the 50 OLDEST rows (ids 0..49), not the most recent 50
(ids 1..50) that the specification describes: the query orders ascending
by creation time and then applies `LIMIT`, so the newest row — the user
message just saved by `Agent.processMessage` — is dropped from the
reconstructed context. -/
theorem getConversationMessages_drops_newest :
    getConversationMessages c1Table 1 1 50 = (List.range 50).map c1Row ∧
    getConversationMessages c1Table 1 1 50 ≠ ((List.range 51).map c1Row).drop 1 := by
  constructor
  · rfl
  · decide

/-- C10: `getConversationHistory` is total and returns exactly one
message per row read: the output has the same length as the row list
returned by `getConversationMessages`, and every row whose stored
`message_data` fails to parse contributes the fixed message
`{role: user, content: Error parsing message}` to the output (it is
neither dropped nor raised as an error). -/
theorem getConversationHistory_one_message_per_row
    (parse : String → Option CoreMessage) (table : List ConversationRow)
    (userId chatId : Int) (limit : Nat) :
    (getConversationHistory parse table userId chatId limit).length
      = (getConversationMessages table userId chatId limit).length ∧
    ∀ r, r ∈ getConversationMessages table userId chatId limit →
      parse r.message_data = none →
      parseErrorMessage ∈ getConversationHistory parse table userId chatId limit := by
  constructor
  · simp [getConversationHistory]
  · intro r hr hparse
    have : parseErrorMessage =
        (fun msg => match parse msg.message_data with
          | some m => m
          | none => parseErrorMessage) r := by
      simp [hparse]
    rw [this]
    exact List.mem_map_of_mem _ hr

/-- Witness for C10 at a concrete input: a single stored row whose data
never parses yields the fallback message in the history. -/
theorem getConversationHistory_one_message_per_row_witness :
    parseErrorMessage ∈
      getConversationHistory (fun _ => none) [c1Row 0] 1 1 50 :=
  (getConversationHistory_one_message_per_row (fun _ => none) [c1Row 0] 1 1 50).2
    (c1Row 0) (by decide) rfl

/-! ## Task table and monitor (database.ts getActiveTasks, bot.ts monitorTasks) -/

/-- Row of the `tasks` table. -/
structure Task where
  id : Nat
  user_id : Int
  chat_id : Int
  composer_id : String
  repo_url : String
  task_description : String
  status : String
  created_at : Nat
deriving DecidableEq, Repr

/-- The SQL filter of `Database.getActiveTasks`:
`WHERE status NOT IN ('CANCELLED', 'COMPLETED')`. -/
def isPolled (t : Task) : Bool :=
  t.status != "CANCELLED" && t.status != "COMPLETED"

/-- Insert into a list sorted by `created_at` descending (stable),
modelling `ORDER BY created_at DESC`. -/
def insertTaskDesc (a : Task) : List Task → List Task
  | [] => [a]
  | b :: l => if Nat.ble b.created_at a.created_at then a :: b :: l
              else b :: insertTaskDesc a l

/-- Sort by `created_at` descending. -/
def sortTasksDesc : List Task → List Task
  | [] => []
  | a :: l => insertTaskDesc a (sortTasksDesc l)

/-- `Database.getActiveTasks`: all tasks whose status is neither
`CANCELLED` nor `COMPLETED`, newest first. -/
def getActiveTasks (table : List Task) : List Task :=
  sortTasksDesc (table.filter isPolled)

/-- A Telegram notification emitted by the monitor. -/
structure Notif where
  chat_id : Int
  text : String
deriving DecidableEq, Repr

/-- The common tail of every monitor notification message. -/
def statusLine (t : Task) : String :=
  "*" ++ t.task_description ++ "*\n\nRepo: " ++ t.repo_url ++
    "\nComposer: `" ++ t.composer_id ++ "`"

/-- The status-specific notification text chosen by `monitorTasks`. -/
def renderStatusMessage (t : Task) (newStatus : String) : String :=
  if newStatus == "FINISHED" then "✅ *Task completed!*\n\n" ++ statusLine t
  else if newStatus == "ERROR" then "❌ *Task failed!*\n\n" ++ statusLine t
  else if newStatus == "EXPIRED" then "⏱️ *Task expired!*\n\n" ++ statusLine t
  else if newStatus == "RUNNING" then "🔄 *Task is now running*\n\n" ++ statusLine t
  else "🔄 *Task status updated to " ++ newStatus ++ "*\n\n" ++ statusLine t

/-- The body of the per-task loop in `monitorTasks`: query the remote
API by composer id (`none` models a thrown/logged error, which leaves
the task untouched); when the returned status differs from the stored
one, persist it (`Database.updateTask`) and emit one notification. -/
def stepTask (remote : String → Option String) (t : Task) : Task × List Notif :=
  match remote t.composer_id with
  | none => (t, [])
  | some newStatus =>
    if t.status ≠ newStatus then
      ({ t with status := newStatus },
        [{ chat_id := t.chat_id, text := renderStatusMessage t newStatus }])
    else (t, [])

/-- One monitor cycle as seen by a single stored task: it is processed
by `stepTask` exactly when `getActiveTasks` selects it. -/
def cycleTask (remote : String → Option String) (t : Task) : Task × List Notif :=
  if isPolled t then stepTask remote t else (t, [])

/-- `monitorTasks`: one full monitor cycle over the task table, using a
remote status oracle; returns the updated table and the notifications
emitted, in polling order. -/
def monitorTasks (remote : String → Option String) (table : List Task) :
    List Task × List Notif :=
  (table.map (fun t => (cycleTask remote t).1),
    (getActiveTasks table).flatMap (fun t => (stepTask remote t).2))

theorem mem_insertTaskDesc {x a : Task} {l : List Task} :
    x ∈ insertTaskDesc a l ↔ x = a ∨ x ∈ l := by
  induction l with
  | nil => simp [insertTaskDesc]
  | cons b l ih =>
    by_cases h : Nat.ble b.created_at a.created_at
    · simp [insertTaskDesc, h]
    · simp [insertTaskDesc, h, ih]
      tauto

theorem mem_sortTasksDesc {x : Task} {l : List Task} :
    x ∈ sortTasksDesc l ↔ x ∈ l := by
  induction l with
  | nil => simp [sortTasksDesc]
  | cons a l ih => simp [sortTasksDesc, mem_insertTaskDesc, ih]

/-! ### Claims C2 and C4 -/

/-- Concrete FINISHED task used to refute C2 as stated. -/
def c2Task : Task :=
  { id := 1, user_id := 1, chat_id := 1, composer_id := "bc-1",
    repo_url := "https://github.com/a/b", task_description := "demo",
    status := "FINISHED", created_at := 0 }

/-- C2 counterexample: a task whose stored status is the terminal status
FINISHED is still returned by `getActiveTasks`, hence polled again on
the next monitor cycle, contradicting the claim that tasks in a
terminal state are not polled. -/
theorem finished_task_still_polled :
    c2Task.status = "FINISHED" ∧ getActiveTasks [c2Task] = [c2Task] :=
  ⟨rfl, rfl⟩

/-- C2 amended: on every monitor cycle the remote API is queried exactly
for the stored tasks whose status is neither CANCELLED nor COMPLETED;
since the remote API never reports COMPLETED, tasks that reach FINISHED,
ERROR or EXPIRED keep being polled on every later cycle. -/
theorem getActiveTasks_polls_non_cancelled_non_completed
    (table : List Task) (t : Task) :
    t ∈ getActiveTasks table ↔
      t ∈ table ∧ t.status ≠ "CANCELLED" ∧ t.status ≠ "COMPLETED" := by
  simp [getActiveTasks, mem_sortTasksDesc, List.mem_filter, isPolled,
    and_assoc]

theorem cycleTask_notif_len_le (remote : String → Option String) (t : Task) :
    (cycleTask remote t).2.length ≤ 1 := by
  unfold cycleTask stepTask
  by_cases hp : isPolled t = true <;> simp [hp]
  cases remote t.composer_id with
  | none => simp
  | some s => by_cases hs : t.status = s <;> simp [hs]

/-- C4: for every monitored task, either nothing happens in a cycle
(status kept, no notification) or the remote API returned a status `s`
different from the stored one, in which case the stored status becomes
`s` and exactly one notification is emitted in that same cycle; and two
consecutive cycles against the same remote status oracle emit at most
one notification for the task in total. -/
theorem monitor_notifies_once_per_change (remote : String → Option String)
    (t : Task) :
    ((cycleTask remote t).1 = t ∧ (cycleTask remote t).2 = [] ∨
      ∃ s, remote t.composer_id = some s ∧ s ≠ t.status ∧
        (cycleTask remote t).1.status = s ∧
        (cycleTask remote t).2 =
          [{ chat_id := t.chat_id, text := renderStatusMessage t s }]) ∧
    (cycleTask remote t).2.length +
      (cycleTask remote (cycleTask remote t).1).2.length ≤ 1 := by
  constructor
  · unfold cycleTask stepTask
    by_cases hp : isPolled t = true
    · simp only [hp, if_pos]
      cases hrem : remote t.composer_id with
      | none => simp
      | some s =>
        by_cases hs : t.status = s
        · simp [hs]
        · right
          refine ⟨s, rfl, fun h => hs h.symm, ?_, ?_⟩ <;> simp [hs]
    · simp [hp]
  · by_cases hp : isPolled t = true
    · unfold cycleTask
      simp only [hp, if_pos]
      unfold stepTask
      cases hrem : remote t.composer_id with
      | none =>
        simp [hp, hrem, cycleTask, stepTask]
      | some s =>
        by_cases hs : t.status = s
        · simp only [hs, ne_eq, not_true_eq_false, if_neg, not_false_eq_true,
            if_pos, List.length_nil, Nat.zero_add, ite_not]
          simp [cycleTask, stepTask, hp, hrem, hs]
        · have hne : t.status ≠ s := hs
          simp only [hne, if_pos, ne_eq, not_false_eq_true]
          by_cases hp2 : isPolled { t with status := s } = true
          · simp [cycleTask, stepTask, hp2, hrem]
          · simp [cycleTask, hp2]
    · simp [cycleTask, hp]

/-! ## Image cache (image-cache.ts)

One JSON file per `(user, chat)` key, stored beside the database; the
file's modification time is the expiry clock.  The directory is
modelled as an association list from file name (cache key) to the
stored record together with its mtime. -/

/-- Pixel dimensions of a cached image. -/
structure Dimension where
  width : Nat
  height : Nat
deriving DecidableEq, Repr

/-- One cached image (base64 payload plus dimensions). -/
structure AgentImage where
  data : String
  dimension : Dimension
deriving DecidableEq, Repr

/-- Contents of one cache file plus the file's modification time. -/
structure CacheEntry where
  images : List AgentImage
  timestamp : Nat
  mtime : Nat
deriving DecidableEq, Repr

/-- The cache directory: file name to entry. -/
abbrev CacheDir := List (String × CacheEntry)

/-- `CACHE_TTL = 3 * 60 * 1000` milliseconds. -/
def CACHE_TTL : Nat := 3 * 60 * 1000

/-- `getCacheKey`: the per-(user, chat) file name stem. -/
def getCacheKey (userId chatId : Int) : String :=
  toString userId ++ "_" ++ toString chatId

/-- Look up the entry stored under a file name. -/
def lookupEntry (key : String) : CacheDir → Option CacheEntry
  | [] => none
  | (k, e) :: l => if k == key then some e else lookupEntry key l

/-- Delete the file with the given name (`fs.unlinkSync`). -/
def eraseEntry (key : String) : CacheDir → CacheDir
  | [] => []
  | (k, e) :: l => if k == key then eraseEntry key l else (k, e) :: eraseEntry key l

/-- `saveImagesToCache`: overwrite the key's file with the given image
group; the write stamps both the embedded timestamp and the file mtime
with the current time. -/
def saveImagesToCache (dir : CacheDir) (userId chatId : Int)
    (images : List AgentImage) (now : Nat) : CacheDir :=
  (getCacheKey userId chatId,
    { images := images, timestamp := now, mtime := now })
    :: eraseEntry (getCacheKey userId chatId) dir

/-- `getImagesFromCache`: empty if no file; if the file age exceeds the
TTL, delete it and return empty; otherwise return the stored images.
Returns the images together with the directory after side effects. -/
def getImagesFromCache (dir : CacheDir) (userId chatId : Int) (now : Nat) :
    List AgentImage × CacheDir :=
  match lookupEntry (getCacheKey userId chatId) dir with
  | none => ([], dir)
  | some e =>
    if CACHE_TTL < now - e.mtime then
      ([], eraseEntry (getCacheKey userId chatId) dir)
    else (e.images, dir)

/-- `cleanupImageCache` (the 60-second sweep): delete every file whose
age strictly exceeds the TTL, keep the rest. -/
def cleanupImageCache (dir : CacheDir) (now : Nat) : CacheDir :=
  dir.filter (fun p => decide (now - p.2.mtime ≤ CACHE_TTL))

/-- `clearImagesFromCache`: delete the key's file unconditionally. -/
def clearImagesFromCache (dir : CacheDir) (userId chatId : Int) : CacheDir :=
  eraseEntry (getCacheKey userId chatId) dir

/-- The photo handler in bot.ts: read the existing group (with the
expiry side effect), append the new image and save the whole group. -/
def handlePhoto (dir : CacheDir) (userId chatId : Int) (img : AgentImage)
    (now : Nat) : CacheDir :=
  let r := getImagesFromCache dir userId chatId now
  saveImagesToCache r.2 userId chatId (r.1 ++ [img]) now

/-- A sequence of photo messages, each tagged with its arrival time. -/
def appendAll (dir : CacheDir) (userId chatId : Int) :
    List (AgentImage × Nat) → CacheDir
  | [] => dir
  | (img, t) :: ps => appendAll (handlePhoto dir userId chatId img t) userId chatId ps

/-- Iterated background sweeps at the given times. -/
def sweepAll (dir : CacheDir) : List Nat → CacheDir
  | [] => dir
  | t :: ts => sweepAll (cleanupImageCache dir t) ts

/-- Each arrival is within the TTL of the previous write time. -/
def chainedFrom (m : Nat) : List (AgentImage × Nat) → Prop
  | [] => True
  | (_, t) :: ps => t - m ≤ CACHE_TTL ∧ chainedFrom t ps

/-- The time of the last write in a photo sequence. -/
def lastWrite (m : Nat) : List (AgentImage × Nat) → Nat
  | [] => m
  | (_, t) :: ps => lastWrite t ps

theorem lookupEntry_save (dir : CacheDir) (userId chatId : Int)
    (images : List AgentImage) (now : Nat) :
    lookupEntry (getCacheKey userId chatId)
      (saveImagesToCache dir userId chatId images now)
      = some { images := images, timestamp := now, mtime := now } := by
  simp [saveImagesToCache, lookupEntry]

theorem lookupEntry_erase (key : String) (dir : CacheDir) :
    lookupEntry key (eraseEntry key dir) = none := by
  induction dir with
  | nil => rfl
  | cons p l ih =>
    by_cases h : p.1 == key <;> simp [eraseEntry, lookupEntry, h, ih]

theorem appendAll_lookup (userId chatId : Int) (ps : List (AgentImage × Nat)) :
    ∀ (dir : CacheDir) (imgs : List AgentImage) (m : Nat),
      lookupEntry (getCacheKey userId chatId) dir
        = some { images := imgs, timestamp := m, mtime := m } →
      chainedFrom m ps →
      lookupEntry (getCacheKey userId chatId) (appendAll dir userId chatId ps)
        = some { images := imgs ++ ps.map Prod.fst,
                 timestamp := lastWrite m ps, mtime := lastWrite m ps } := by
  induction ps with
  | nil => intro dir imgs m h _; simpa [appendAll, lastWrite] using h
  | cons p ps ih =>
    intro dir imgs m h hch
    obtain ⟨img, t⟩ := p
    obtain ⟨hgap, hch⟩ := hch
    have hread : getImagesFromCache dir userId chatId t = (imgs, dir) := by
      simp [getImagesFromCache, h, Nat.not_lt_of_le hgap]
    have hstep : lookupEntry (getCacheKey userId chatId)
        (handlePhoto dir userId chatId img t)
        = some { images := imgs ++ [img], timestamp := t, mtime := t } := by
      simp [handlePhoto, hread, lookupEntry_save]
    have := ih (handlePhoto dir userId chatId img t) (imgs ++ [img]) t hstep hch
    simpa [appendAll, lastWrite, List.append_assoc] using this

/-! ### Claims C5, C6 and C7 -/

/-- C5: starting with no cached group, appending images sequentially,
each within the TTL of the previous write, then reading within the TTL
of the last write, yields exactly the appended images in append order;
and appending to a group whose age has exceeded the TTL yields a fresh
group containing only the new image (the old images are lost). -/
theorem images_append_order_and_expiry (userId chatId : Int)
    (img1 : AgentImage) (t1 : Nat) (rest : List (AgentImage × Nat))
    (dir : CacheDir) (tRead : Nat)
    (h0 : lookupEntry (getCacheKey userId chatId) dir = none)
    (hch : chainedFrom t1 rest)
    (hread : tRead - lastWrite t1 rest ≤ CACHE_TTL) :
    (getImagesFromCache
        (appendAll dir userId chatId ((img1, t1) :: rest)) userId chatId tRead).1
      = img1 :: rest.map Prod.fst ∧
    ∀ (dir2 : CacheDir) (e : CacheEntry) (img : AgentImage) (t : Nat),
      lookupEntry (getCacheKey userId chatId) dir2 = some e →
      CACHE_TTL < t - e.mtime →
      lookupEntry (getCacheKey userId chatId)
          (handlePhoto dir2 userId chatId img t)
        = some { images := [img], timestamp := t, mtime := t } := by
  constructor
  · have hread0 : getImagesFromCache dir userId chatId t1 = ([], dir) := by
      simp [getImagesFromCache, h0]
    have hstep : lookupEntry (getCacheKey userId chatId)
        (handlePhoto dir userId chatId img1 t1)
        = some { images := [img1], timestamp := t1, mtime := t1 } := by
      simp [handlePhoto, hread0, lookupEntry_save]
    have hfinal := appendAll_lookup userId chatId rest
      (handlePhoto dir userId chatId img1 t1) [img1] t1 hstep hch
    have : appendAll dir userId chatId ((img1, t1) :: rest)
        = appendAll (handlePhoto dir userId chatId img1 t1) userId chatId rest := rfl
    rw [this]
    simp [getImagesFromCache, hfinal, Nat.not_lt_of_le hread]
  · intro dir2 e img t he hexp
    have hread2 : getImagesFromCache dir2 userId chatId t
        = ([], eraseEntry (getCacheKey userId chatId) dir2) := by
      simp [getImagesFromCache, he, hexp]
    simp [handlePhoto, hread2, lookupEntry_save]

/-- Concrete images for the witnesses. -/
def imgA : AgentImage := { data := "aaaa", dimension := { width := 2, height := 3 } }

/-- Second concrete image for the witnesses. -/
def imgB : AgentImage := { data := "bbbb", dimension := { width := 4, height := 5 } }

/-- Witness for C5 at a concrete input: two photos at times 0 and 1000,
read at time 2000, yield both images in order; and a photo arriving
200000 ms after an existing write replaces the group with itself alone. -/
theorem images_append_order_and_expiry_witness :
    (getImagesFromCache (appendAll [] 1 1 [(imgA, 0), (imgB, 1000)]) 1 1 2000).1
      = [imgA, imgB] ∧
    lookupEntry (getCacheKey 1 1)
        (handlePhoto [(getCacheKey 1 1,
          { images := [imgA], timestamp := 0, mtime := 0 })] 1 1 imgB 200000)
      = some { images := [imgB], timestamp := 200000, mtime := 200000 } := by
  have h := images_append_order_and_expiry 1 1 imgA 0 [(imgB, 1000)] [] 2000
    rfl ⟨by norm_num [CACHE_TTL], trivial⟩ (by norm_num [lastWrite, CACHE_TTL])
  refine ⟨by simpa using h.1, ?_⟩
  exact h.2 [(getCacheKey 1 1, { images := [imgA], timestamp := 0, mtime := 0 })]
    { images := [imgA], timestamp := 0, mtime := 0 } imgB 200000
    (by simp [lookupEntry]) (by norm_num [CACHE_TTL])

/-- C6: reading a group whose file age strictly exceeds the TTL returns
the empty list and deletes the file; a second read for the same key then
finds no file and again returns the empty list, without erroring. -/
theorem read_expired_deletes_then_empty (userId chatId : Int)
    (dir : CacheDir) (e : CacheEntry) (now now2 : Nat)
    (h : lookupEntry (getCacheKey userId chatId) dir = some e)
    (hexp : CACHE_TTL < now - e.mtime) :
    (getImagesFromCache dir userId chatId now).1 = [] ∧
    lookupEntry (getCacheKey userId chatId)
      (getImagesFromCache dir userId chatId now).2 = none ∧
    getImagesFromCache (getImagesFromCache dir userId chatId now).2
        userId chatId now2
      = ([], (getImagesFromCache dir userId chatId now).2) := by
  have hread : getImagesFromCache dir userId chatId now
      = ([], eraseEntry (getCacheKey userId chatId) dir) := by
    simp [getImagesFromCache, h, hexp]
  refine ⟨by rw [hread], by rw [hread]; exact lookupEntry_erase _ _, ?_⟩
  rw [hread]
  simp [getImagesFromCache, lookupEntry_erase]

/-- Witness for C6 at a concrete input: a group written at time 0 and
read at time 200000 is returned empty, its file is deleted, and the
second read is empty as well. -/
theorem read_expired_deletes_then_empty_witness :
    (getImagesFromCache [(getCacheKey 1 1,
        { images := [imgA], timestamp := 0, mtime := 0 })] 1 1 200000).1 = [] ∧
    lookupEntry (getCacheKey 1 1)
      (getImagesFromCache [(getCacheKey 1 1,
        { images := [imgA], timestamp := 0, mtime := 0 })] 1 1 200000).2 = none :=
  have h := read_expired_deletes_then_empty 1 1
    [(getCacheKey 1 1, { images := [imgA], timestamp := 0, mtime := 0 })]
    { images := [imgA], timestamp := 0, mtime := 0 } 200000 200001
    (by simp [lookupEntry]) (by simp [CACHE_TTL])
  ⟨h.1, h.2.1⟩

theorem mem_cleanupImageCache {p : String × CacheEntry} {dir : CacheDir}
    {now : Nat} :
    p ∈ cleanupImageCache dir now ↔ p ∈ dir ∧ now - p.2.mtime ≤ CACHE_TTL := by
  simp [cleanupImageCache, List.mem_filter]

theorem mem_sweepAll_subset {p : String × CacheEntry} {ts : List Nat} :
    ∀ {dir : CacheDir}, p ∈ sweepAll dir ts → p ∈ dir := by
  induction ts with
  | nil => intro dir h; exact h
  | cons t ts ih =>
    intro dir h
    exact (mem_cleanupImageCache.mp (ih h)).1

/-- C7: across any number of sweep cycles, a stored group whose age is
at most the TTL at every sweep time is never deleted, and a group whose
age strictly exceeds the TTL at some sweep time is deleted by the end of
the run. -/
theorem sweep_keeps_young_deletes_old (k : String) (e : CacheEntry)
    (ts : List Nat) :
    ∀ dir : CacheDir,
      ((k, e) ∈ dir → (∀ t ∈ ts, t - e.mtime ≤ CACHE_TTL) →
        (k, e) ∈ sweepAll dir ts) ∧
      (∀ t0 ∈ ts, CACHE_TTL < t0 - e.mtime → (k, e) ∉ sweepAll dir ts) := by
  induction ts with
  | nil =>
    intro dir
    exact ⟨fun h _ => h, fun t0 h0 => absurd h0 (List.not_mem_nil t0)⟩
  | cons t ts ih =>
    intro dir
    constructor
    · intro hmem hyoung
      have hkeep : (k, e) ∈ cleanupImageCache dir t :=
        mem_cleanupImageCache.mpr ⟨hmem, hyoung t (List.mem_cons_self t ts)⟩
      exact (ih (cleanupImageCache dir t)).1 hkeep
        (fun u hu => hyoung u (List.mem_cons_of_mem t hu))
    · intro t0 ht0 hold hmem
      rcases List.mem_cons.mp ht0 with h | h
      · subst h
        have : (k, e) ∈ cleanupImageCache dir t0 := mem_sweepAll_subset hmem
        exact absurd (mem_cleanupImageCache.mp this).2 (Nat.not_le_of_lt hold)
      · exact (ih (cleanupImageCache dir t)).2 t0 h hold hmem

/-- Witness for C7 at a concrete input: a group written at time 0
survives sweeps at times 1000 and 2000, and is removed by a run whose
second sweep happens at time 200000. -/
theorem sweep_keeps_young_deletes_old_witness :
    (getCacheKey 1 1, { images := [imgA], timestamp := 0, mtime := 0 })
        ∈ sweepAll [(getCacheKey 1 1,
          { images := [imgA], timestamp := 0, mtime := 0 })] [1000, 2000] ∧
    (getCacheKey 1 1, { images := [imgA], timestamp := 0, mtime := 0 })
        ∉ sweepAll [(getCacheKey 1 1,
          { images := [imgA], timestamp := 0, mtime := 0 })] [1000, 200000] :=
  ⟨(sweep_keeps_young_deletes_old (getCacheKey 1 1)
      { images := [imgA], timestamp := 0, mtime := 0 } [1000, 2000] _).1
      (List.mem_singleton.mpr rfl) (by decide),
   (sweep_keeps_young_deletes_old (getCacheKey 1 1)
      { images := [imgA], timestamp := 0, mtime := 0 } [1000, 200000] _).2
      200000 (by decide) (by decide)⟩

/-! ## Agent tool executors (agent.ts, official-API version)

Each executor's remote or database effect is passed in as an
`Except String`-valued argument: `Except.error` models the effect
throwing.  An executor that catches its failures has a plain return
type (it always produces a payload); an executor without a try/catch
returns `Except String _`, and a failing effect propagates. -/

/-- Result of the remote `createAgent` / `getAgent` call. -/
structure CreateAgentResult where
  id : String
  status : String
deriving DecidableEq, Repr

/-- Payload a tool executor hands back to the LLM: either a success
payload or the structured error payload. -/
inductive ToolReply where
  | ok (message : String)
  | err (message : String)
deriving DecidableEq, Repr

/-- `Database.createTask`: insert a row (AUTOINCREMENT id). -/
def createTask (tasks : List Task) (userId chatId : Int)
    (composerId repoUrl taskDescription status : String) (now : Nat) : List Task :=
  let row : Task :=
    { id := tasks.length + 1, user_id := userId, chat_id := chatId,
      composer_id := composerId, repo_url := repoUrl,
      task_description := taskDescription, status := status, created_at := now }
  tasks ++ [row]

/-- `Database.updateTask`: set the status of the row with the given id. -/
def updateTask (tasks : List Task) (id : Nat) (status : String) : List Task :=
  tasks.map (fun t => if t.id == id then { t with status := status } else t)

/-- `Database.getTaskByComposerId`. -/
def getTaskByComposerId (tasks : List Task) (composerId : String) : Option Task :=
  tasks.find? (fun t => t.composer_id == composerId)

/-- Everything the `startTask` executor produces or mutates. -/
structure StartTaskOut where
  reply : ToolReply
  remoteCalled : Bool
  dir : CacheDir
  tasks : List Task
deriving Repr

/-- The `startTask` tool executor: reject a repository outside a
non-empty allow-list before any remote call; otherwise read the cached
images, create the remote agent, record the task and clear the image
cache.  A failure of the remote call is caught and returned as an
error payload. -/
def startTask (allowedRepos : List String) (repoUrl taskDescription : String)
    (userId chatId : Int) (dir : CacheDir) (tasks : List Task) (now : Nat)
    (createAgent : List AgentImage → Except String CreateAgentResult) :
    StartTaskOut :=
  if allowedRepos.length != 0 && !(allowedRepos.contains repoUrl) then
    { reply := .err ("Repository " ++ repoUrl ++
        " is not in allowed list. Allowed repos: " ++
        String.intercalate ", " allowedRepos),
      remoteCalled := false, dir := dir, tasks := tasks }
  else
    let r := getImagesFromCache dir userId chatId now
    match createAgent r.1 with
    | .error e =>
      { reply := .err ("Failed to start task: " ++ e),
        remoteCalled := true, dir := r.2, tasks := tasks }
    | .ok res =>
      { reply := .ok ("Task started in " ++ repoUrl ++ ": " ++ taskDescription),
        remoteCalled := true,
        dir := clearImagesFromCache r.2 userId chatId,
        tasks := createTask tasks userId chatId res.id repoUrl taskDescription
          res.status now }

/-- The `getRepos` executor (has try/catch). -/
def getRepos (listRepositories : Except String (List String)) : ToolReply :=
  match listRepositories with
  | .ok rs => .ok ("repos: " ++ String.intercalate ", " rs)
  | .error e => .err ("Failed to get repos: " ++ e)

/-- The `getTaskStatus` executor (has try/catch); on success it also
persists the returned status. -/
def getTaskStatus (composerId : String)
    (getAgent : Except String CreateAgentResult) (tasks : List Task) :
    ToolReply × List Task :=
  match getAgent with
  | .error e => (.err ("Failed to get task status: " ++ e), tasks)
  | .ok agent =>
    (.ok ("status: " ++ agent.status),
      match getTaskByComposerId tasks composerId with
      | some task => updateTask tasks task.id agent.status
      | none => tasks)

/-- The `stopTask` executor (has try/catch). -/
def stopTask (composerId : String) (deleteAgent : Except String Unit)
    (tasks : List Task) : ToolReply × List Task :=
  match deleteAgent with
  | .error e => (.err ("Failed to stop task: " ++ e), tasks)
  | .ok _ =>
    (.ok ("Task " ++ composerId ++ " has been stopped"),
      match getTaskByComposerId tasks composerId with
      | some task => updateTask tasks task.id "CANCELLED"
      | none => tasks)

/-- The `addFollowup` executor (has try/catch). -/
def addFollowup (followup : Except String String) : ToolReply :=
  match followup with
  | .ok id => .ok ("follow-up added to " ++ id)
  | .error e => .err ("Failed to add follow-up: " ++ e)

/-- The `getAvailableModels` executor has NO try/catch in the source:
a failing `listModels` call propagates out of the executor. -/
def getAvailableModels (listModels : Except String (List String)) :
    Except String ToolReply :=
  match listModels with
  | .ok ms => .ok (.ok ("models: " ++ String.intercalate ", " ms))
  | .error e => .error e

/-- The `getActiveTasks` executor also has NO try/catch in the source:
a failing database query propagates out of the executor. -/
def getActiveTasksTool (queryTasks : Except String (List Task))
    (userId chatId : Int) : Except String ToolReply :=
  match queryTasks with
  | .ok ts => .ok (.ok (toString
      (ts.filter (fun t => t.user_id == userId && t.chat_id == chatId)).length))
  | .error e => .error e

/-- Value returned by `Agent.processMessage` to the bot layer. -/
inductive AgentResponse where
  | text (s : String)
  | buttonMessage (text : String) (buttons : List (String × String))
deriving DecidableEq, Repr

/-- The error boundary of `Agent.processMessage`: the whole
`generateText` call sits in a try/catch whose catch converts any
failure into a user-visible error string; a success is returned as is. -/
def processMessage (genResult : Except String AgentResponse) : AgentResponse :=
  match genResult with
  | .ok r => r
  | .error e => .text ("Error processing message v2: " ++ e)

/-! ## LLM tool-calling loop budget (agent.ts maxSteps) -/

/-- One reasoning round of the external LLM loop: either final text or
a tool call whose result is fed back for another round. -/
inductive LLMStep where
  | final (text : String)
  | toolCall (name : String) (result : String)
deriving DecidableEq, Repr

/-- Modelled from the spec: the external LLM tool-calling API (spec
section 6) consumed by `Agent.processMessage`, which runs reasoning
rounds until the model produces final text or the step budget is
exhausted.  The repository supplies only the budget.  Returns the final
text (empty when truncated mid-loop) and the number of rounds run. -/
def generateTextLoop (oracle : Nat → LLMStep) : Nat → Nat → String × Nat
  | _, 0 => ("", 0)
  | i, fuel + 1 =>
    match oracle i with
    | .final t => (t, 1)
    | .toolCall _ _ =>
      let r := generateTextLoop oracle (i + 1) fuel
      (r.1, r.2 + 1)

/-- The step budget `maxSteps: 20` that `Agent.processMessage` passes
to `generateText`. -/
def maxSteps : Nat := 20

/-- The orchestrator's LLM call with the repository's fixed budget. -/
def runAgentLoop (oracle : Nat → LLMStep) : String × Nat :=
  generateTextLoop oracle 0 maxSteps

theorem generateTextLoop_le (oracle : Nat → LLMStep) :
    ∀ (fuel i : Nat), (generateTextLoop oracle i fuel).2 ≤ fuel := by
  intro fuel
  induction fuel with
  | zero => intro i; simp [generateTextLoop]
  | succ n ih =>
    intro i
    unfold generateTextLoop
    cases oracle i with
    | final t => simp
    | toolCall name result => simpa using Nat.succ_le_succ (ih (i + 1))

/-! ### Claims C3, C8 and C9 -/

/-- C3: with a non-empty allow-list and a repository outside it, the
`startTask` executor returns the error payload naming the allowed list
and performs no remote create-task call (and changes no state); with an
empty allow-list the check never rejects and the remote call is made. -/
theorem startTask_allowlist (allowedRepos : List String)
    (repoUrl taskDescription : String) (userId chatId : Int)
    (dir : CacheDir) (tasks : List Task) (now : Nat)
    (createAgent : List AgentImage → Except String CreateAgentResult)
    (hne : allowedRepos ≠ [])
    (hout : allowedRepos.contains repoUrl = false) :
    startTask allowedRepos repoUrl taskDescription userId chatId dir tasks now
        createAgent
      = { reply := ToolReply.err ("Repository " ++ repoUrl ++
            " is not in allowed list. Allowed repos: " ++
            String.intercalate ", " allowedRepos),
          remoteCalled := false, dir := dir, tasks := tasks } ∧
    ∀ (ca : List AgentImage → Except String CreateAgentResult),
      (startTask [] repoUrl taskDescription userId chatId dir tasks now
        ca).remoteCalled = true := by
  constructor
  · have hlen : allowedRepos.length ≠ 0 := by
      simpa [List.length_eq_zero] using hne
    have hcond : (allowedRepos.length != 0 && !(allowedRepos.contains repoUrl))
        = true := by
      rw [hout]
      simpa using hlen
    unfold startTask
    rw [hcond]
    rfl
  · intro ca
    unfold startTask
    simp only [List.length_nil]
    cases ca (getImagesFromCache dir userId chatId now).1 <;> simp

/-- Witness for C3 at the spec's own scenario: allow-list
`[https://github.com/a/b]`, requested repository `https://github.com/x/y`. -/
theorem startTask_allowlist_witness :
    (startTask ["https://github.com/a/b"] "https://github.com/x/y" "demo"
        1 1 [] [] 0 (fun _ => Except.ok { id := "bc-9", status := "CREATING" }))
      = { reply := ToolReply.err ("Repository https://github.com/x/y" ++
            " is not in allowed list. Allowed repos: https://github.com/a/b"),
          remoteCalled := false, dir := [], tasks := [] } ∧
    (startTask [] "https://github.com/x/y" "demo" 1 1 [] [] 0
        (fun _ => Except.ok { id := "bc-9", status := "CREATING" })).remoteCalled
      = true := by
  have h := startTask_allowlist ["https://github.com/a/b"]
    "https://github.com/x/y" "demo" 1 1 [] [] 0
    (fun _ => Except.ok { id := "bc-9", status := "CREATING" })
    (by decide) (by decide)
  exact ⟨by simpa using h.1, h.2 _⟩

/-- C8 counterexample: the `getAvailableModels` executor does not catch
its failure — the error propagates out of the executor instead of being
returned as an error payload, refuting the claim that every tool
executor catches its own failures. -/
theorem getAvailableModels_propagates :
    getAvailableModels (Except.error "remote failure")
      = Except.error "remote failure" := rfl

/-- C8 amended: `processMessage` converts any failure of the LLM call
into a user-visible error string; the executors with a try/catch
(`getRepos`, `startTask`, `getTaskStatus`, `stopTask`, `addFollowup`)
return structured error payloads on failure; but `getAvailableModels`
and `getActiveTasks` have no try/catch and propagate their failures
(which then land in processMessage's outer catch). -/
theorem error_boundaries (e composerId : String) (tasks : List Task)
    (userId chatId : Int) :
    processMessage (Except.error e)
        = AgentResponse.text ("Error processing message v2: " ++ e) ∧
    getRepos (Except.error e) = ToolReply.err ("Failed to get repos: " ++ e) ∧
    (getTaskStatus composerId (Except.error e) tasks).1
        = ToolReply.err ("Failed to get task status: " ++ e) ∧
    (stopTask composerId (Except.error e) tasks).1
        = ToolReply.err ("Failed to stop task: " ++ e) ∧
    addFollowup (Except.error e)
        = ToolReply.err ("Failed to add follow-up: " ++ e) ∧
    (∀ (allowedRepos : List String) (repoUrl taskDescription : String)
        (dir : CacheDir) (now : Nat), ∃ m,
      (startTask allowedRepos repoUrl taskDescription userId chatId dir tasks
          now (fun _ => Except.error e)).reply = ToolReply.err m) ∧
    getAvailableModels (Except.error e) = Except.error e ∧
    getActiveTasksTool (Except.error e) userId chatId = Except.error e := by
  refine ⟨rfl, rfl, rfl, rfl, rfl, ?_, rfl, rfl⟩
  intro allowedRepos repoUrl taskDescription dir now
  by_cases h : (allowedRepos.length != 0 && !(allowedRepos.contains repoUrl)) = true
  · refine ⟨"Repository " ++ repoUrl ++ " is not in allowed list. Allowed repos: "
      ++ String.intercalate ", " allowedRepos, ?_⟩
    unfold startTask
    rw [h]
    rfl
  · refine ⟨"Failed to start task: " ++ e, ?_⟩
    rw [Bool.not_eq_true] at h
    unfold startTask
    rw [h]
    rfl

/-- C9: the orchestrator's tool-calling loop never runs more than the
fixed budget of 20 reasoning/tool-call rounds, and when the model would
keep calling tools forever the loop is truncated exactly at the budget
while still returning a (best-effort) final text. -/
theorem agent_loop_bounded (oracle : Nat → LLMStep) :
    (runAgentLoop oracle).2 ≤ 20 ∧
    ((∀ i, ∀ t, oracle i ≠ LLMStep.final t) →
      (runAgentLoop oracle).2 = 20 ∧
        runAgentLoop oracle = ((runAgentLoop oracle).1, 20)) := by
  constructor
  · exact generateTextLoop_le oracle maxSteps 0
  · intro hall
    have key : ∀ (fuel i : Nat), (generateTextLoop oracle i fuel).2 = fuel := by
      intro fuel
      induction fuel with
      | zero => intro i; simp [generateTextLoop]
      | succ n ih =>
        intro i
        unfold generateTextLoop
        cases ho : oracle i with
        | final t => exact absurd ho (hall i t)
        | toolCall name result => simpa using ih (i + 1)
    refine ⟨key maxSteps 0, ?_⟩
    have := key maxSteps 0
    exact Prod.ext rfl this

/-- Witness for C9: an oracle that always calls a tool is cut off at
exactly 20 rounds. -/
theorem agent_loop_bounded_witness :
    (runAgentLoop (fun _ => LLMStep.toolCall "getRepos" "r")).2 = 20 :=
  ((agent_loop_bounded (fun _ => LLMStep.toolCall "getRepos" "r")).2
    (fun _ _ h => LLMStep.noConfusion h)).1

end CursorBot
